import Mathlib

/-!
Verification of the agent-trading core of the solana-agentic-wallet
repository: a shallow embedding of `SimpleTraderStrategy`,
`DeFiClient.executeSwap`, `WalletManager`, and `AgentController`
(decision cycles, lifecycle, activity logging), with theorems settling
the specification claims about them.

Numbers are modelled as rationals (the JavaScript sources use IEEE
doubles only for ordinary arithmetic and comparisons; none of the
properties below depends on rounding).
-/

namespace AgenticWallet

/-! ## Strategy parameters (src/strategies/SimpleTraderStrategy.ts)

The constructor takes an optional parameters object; each field is
applied with JavaScript falsy-coalescing (`parameters.buyThreshold || 90`),
so an explicitly supplied `0` is replaced by the default just like an
absent field. -/

structure StrategyParams where
  buyThreshold? : Option ℚ
  sellThreshold? : Option ℚ
  minBalance? : Option ℚ
deriving DecidableEq, Repr

/-- JavaScript `v || d` applied to an optional numeric field: absent or
zero (falsy) yields the default. -/
def orDefault (o : Option ℚ) (d : ℚ) : ℚ :=
  match o with
  | none => d
  | some v => if v = 0 then d else v

inductive LastAction
  | buy
  | sell
  | wait
deriving DecidableEq, Repr

/-- Instance state of `SimpleTraderStrategy`: the three configuration
fields and the mutable `lastAction` field (initially "wait"). -/
structure SimpleTraderStrategy where
  buyThreshold : ℚ
  sellThreshold : ℚ
  minBalance : ℚ
  lastAction : LastAction
deriving DecidableEq, Repr

/-- `new SimpleTraderStrategy(parameters)` — lines 15-25 of
SimpleTraderStrategy.ts.  No validation is performed; defaults are
applied by falsy-coalescing. -/
def SimpleTraderStrategy.create (p : StrategyParams) : SimpleTraderStrategy :=
  { buyThreshold := orDefault p.buyThreshold? 90
    sellThreshold := orDefault p.sellThreshold? 110
    minBalance := orDefault p.minBalance? (1/10)
    lastAction := LastAction.wait }

/-- `new SimpleTraderStrategy()` with no arguments. -/
def SimpleTraderStrategy.createDefault : SimpleTraderStrategy :=
  SimpleTraderStrategy.create ⟨none, none, none⟩

/-- Reason tag abstracting the human-readable reason strings produced by
`evaluate`. -/
inductive WaitReason
  | insufficientBalance
  | priceInRange
deriving DecidableEq, Repr

inductive TradeSide
  | buy
  | sell
deriving DecidableEq, Repr

/-- Result of `SimpleTraderStrategy.evaluate`: either a wait (with the
reason it cites) or a trade of a given side and amount. -/
inductive StrategyAction
  | wait (reason : WaitReason)
  | trade (side : TradeSide) (amount : ℚ)
deriving DecidableEq, Repr

def StrategyAction.isBuy : StrategyAction → Bool
  | StrategyAction.trade TradeSide.buy _ => true
  | _ => false

def StrategyAction.isWait : StrategyAction → Bool
  | StrategyAction.wait _ => true
  | _ => false

/-- `evaluate(conditions, walletBalance)` — lines 30-80 of
SimpleTraderStrategy.ts.  Returns the action together with the updated
instance state (`lastAction` is mutated only in the buy and sell
branches). -/
def SimpleTraderStrategy.evaluate (s : SimpleTraderStrategy) (price : ℚ)
    (walletBalance : ℚ) : StrategyAction × SimpleTraderStrategy :=
  if walletBalance < s.minBalance then
    (StrategyAction.wait WaitReason.insufficientBalance, s)
  else if price < s.buyThreshold ∧ s.lastAction ≠ LastAction.buy then
    (StrategyAction.trade TradeSide.buy (min (walletBalance * (1/10)) (1/2)),
      { s with lastAction := LastAction.buy })
  else if price > s.sellThreshold ∧ s.lastAction ≠ LastAction.sell then
    (StrategyAction.trade TradeSide.sell (1/10),
      { s with lastAction := LastAction.sell })
  else
    (StrategyAction.wait WaitReason.priceInRange, s)

/-! ### Reference decision procedure, written from the specification

The spec describes `evaluate` as a four-step procedure checked in order
(section 4.2 of the spec).  This definition follows the spec text; the
refinement theorem for C8 compares it with the translation of the code
above. -/

/-- Modelled from the spec, section 4.2: the four-step reference decision
procedure, steps checked in order, buy check strictly preceding the sell
check. -/
def specEvaluate (s : SimpleTraderStrategy) (price : ℚ)
    (walletBalance : ℚ) : StrategyAction × SimpleTraderStrategy :=
  -- step 1: insufficient balance blocks trading regardless of price
  if walletBalance < s.minBalance then
    (StrategyAction.wait WaitReason.insufficientBalance, s)
  else
    -- step 2: price below buy threshold and last action was not a buy
    if price < s.buyThreshold then
      if s.lastAction = LastAction.buy then
        step3 s price
      else
        (StrategyAction.trade TradeSide.buy
            (min (walletBalance / 10) (1/2)),
          { s with lastAction := LastAction.buy })
    else
      step3 s price
where
  /-- steps 3 and 4: sell when price is above the sell threshold and the
  last action was not a sell; otherwise wait citing normal range. -/
  step3 (s : SimpleTraderStrategy) (price : ℚ) :
      StrategyAction × SimpleTraderStrategy :=
    if s.sellThreshold < price then
      if s.lastAction = LastAction.sell then
        (StrategyAction.wait WaitReason.priceInRange, s)
      else
        (StrategyAction.trade TradeSide.sell (1/10),
          { s with lastAction := LastAction.sell })
    else
      (StrategyAction.wait WaitReason.priceInRange, s)

/-! ## Wallet ledger (src/services/WalletManager.ts)

The in-memory wallet registry is a map from public key to wallet info,
embedded as an association list (first match wins, `Map.set` replaces in
place). -/

structure TokenBalance where
  mint : String
  amount : ℚ
  decimals : Nat
deriving DecidableEq, Repr

structure WalletInfo where
  balance : ℚ
  tokenBalances : List TokenBalance
deriving DecidableEq, Repr

abbrev Ledger := List (String × WalletInfo)

/-- `walletManager.getWallet` (returns null when absent). -/
def lookupWallet : Ledger → String → Option WalletInfo
  | [], _ => none
  | (k, w) :: rest, pk => if k = pk then some w else lookupWallet rest pk

/-- `walletManager.updateBalance`: sets the balance when the wallet
exists, no-op otherwise. -/
def updateBalance : Ledger → String → ℚ → Ledger
  | [], _, _ => []
  | (k, w) :: rest, pk, b =>
      if k = pk then (k, { w with balance := b }) :: updateBalance rest pk b
      else (k, w) :: updateBalance rest pk b

/-- `walletManager.updateTokenBalances`: replaces the token-balance list
when the wallet exists, no-op otherwise. -/
def updateTokenBalances : Ledger → String → List TokenBalance → Ledger
  | [], _, _ => []
  | (k, w) :: rest, pk, t =>
      if k = pk then
        (k, { w with tokenBalances := t }) :: updateTokenBalances rest pk t
      else (k, w) :: updateTokenBalances rest pk t

/-- `walletManager.createWallet` stores a fresh wallet with zero balance
(`Map.set` on the registry, appending for a fresh key); the generated
public key is a parameter. -/
def createWallet : Ledger → String → Ledger
  | [], pk => [(pk, ⟨0, []⟩)]
  | (k, w) :: rest, pk =>
      if k = pk then (k, ⟨0, []⟩) :: rest
      else (k, w) :: createWallet rest pk

/-! ## Trade execution (src/services/DeFiClient.ts)

`executeSwap` reads the balance, constructs the swap instruction (which
validates the accounts and throws on failure), then adjusts the ledger.
The embedding passes the ledger explicitly and returns the result
together with the ledger as it stands when the function returns — on the
throwing path no mutation has happened yet, so the input ledger is
returned there. -/

structure SwapParams where
  fromToken : String
  toToken : String
  amount : ℚ
deriving DecidableEq, Repr

/-- `validateAccounts` — lines 141-165: false when the wallet does not
exist; for a SOL-funded swap the insufficient-balance throw is caught by
the local catch and also yields false. -/
def validateAccounts (L : Ledger) (pk : String) (p : SwapParams) : Bool :=
  match lookupWallet L pk with
  | none => false
  | some w => !(p.fromToken = "SOL" ∧ w.balance < p.amount : Bool)

/-- `getWalletBalance` — lines 170-173 (`wallet?.balance || 0`). -/
def getWalletBalance (L : Ledger) (pk : String) : ℚ :=
  match lookupWallet L pk with
  | none => 0
  | some w => w.balance

/-- `updateBalancesAfterSwap` — lines 178-189: only a SOL-funded (buy)
swap touches the ledger, setting the balance to balanceBefore - amount. -/
def updateBalancesAfterSwap (L : Ledger) (pk : String) (p : SwapParams)
    (balanceBefore : ℚ) : Ledger :=
  if p.fromToken = "SOL" then updateBalance L pk (balanceBefore - p.amount)
  else L

/-- The error message `executeSwap` produces when account validation
fails (the throw in `constructSwapInstruction` wrapped by the two catch
blocks). -/
def swapInvalidAccountsMsg : String :=
  "Swap execution failed: Failed to construct swap instruction: " ++
    "Invalid accounts for swap"

/-- `executeSwap` — lines 84-133.  The mock signature's timestamp suffix
is not modelled.  Returns (result, ledger after the call). -/
def executeSwap (p : SwapParams) (pk : String) (L : Ledger) :
    Except String String × Ledger :=
  let balanceBefore := getWalletBalance L pk
  if validateAccounts L pk p then
    (Except.ok "mock_swap", updateBalancesAfterSwap L pk p balanceBefore)
  else
    (Except.error swapInvalidAccountsMsg, L)

/-! ## Agent controller (src/services/AgentController.ts)

The controller owns the agent registry (a Map), the set of active agent
ids (a Set), and one scheduled decision interval per active agent (a Map
keyed by agent id).  Maps and sets are embedded as association lists /
lists preserving insertion order.  Timer handles carry no information
beyond their presence, so the interval map is embedded as the list of
agent ids that currently own a scheduled cycle.  Wall-clock timestamps,
the random id suffix, and the synthetic market generator are external
inputs and appear as explicit parameters of the operations. -/

inductive AgentStatus
  | stopped
  | active
  | paused
deriving DecidableEq, Repr

/-- Tag abstracting the decision/reason text of an activity entry. -/
inductive Decision
  | created
  | started
  | stopped
  | buyDecision (amount : ℚ)
  | sellDecision (amount : ℚ)
  | insufficientBalance
  | priceInRange
  | tradeFailed
  | cycleFailed
deriving DecidableEq, Repr

inductive ActivityResult
  | success
  | failure
deriving DecidableEq, Repr

structure AgentActivity where
  action : String
  decision : Decision
  result : ActivityResult
deriving DecidableEq, Repr

/-- Strategy configuration stored on an agent: a string type tag plus the
parameter record (src/types, `AgentStrategy`). -/
structure AgentStrategyCfg where
  type : String
  parameters : StrategyParams
deriving DecidableEq, Repr

structure Agent where
  id : String
  walletPublicKey : String
  strategy : AgentStrategyCfg
  status : AgentStatus
  activityLog : List AgentActivity
deriving DecidableEq, Repr

structure SystemState where
  agents : List (String × Agent)
  activeAgentIds : List String
  decisionIntervals : List String
  wallets : Ledger
deriving DecidableEq, Repr

def initialState : SystemState := ⟨[], [], [], []⟩

def lookupAgent : List (String × Agent) → String → Option Agent
  | [], _ => none
  | (k, a) :: rest, id => if k = id then some a else lookupAgent rest id

/-- `Map.set` on the agent registry: replace in place, else append. -/
def setAgent : List (String × Agent) → String → Agent → List (String × Agent)
  | [], id, a => [(id, a)]
  | (k, b) :: rest, id, a =>
      if k = id then (k, a) :: rest else (k, b) :: setAgent rest id a

def removeAgent (l : List (String × Agent)) (id : String) :
    List (String × Agent) :=
  l.filter (fun kw => kw.1 ≠ id)

/-- `Set.add` / `Map.set` keyed by agent id: append if absent. -/
def addId (l : List String) (id : String) : List String :=
  if id ∈ l then l else l ++ [id]

def removeId (l : List String) (id : String) : List String :=
  l.filter (fun x => x ≠ id)

/-- `createStrategyInstance` — lines 284-297: every known type tag (and,
via the TODO branches, the unimplemented ones) constructs a
`SimpleTraderStrategy` from the stored parameters; an unknown tag falls
back to the parameterless constructor. -/
def createStrategyInstance (cfg : AgentStrategyCfg) : SimpleTraderStrategy :=
  if cfg.type = "simple-trader" ∨ cfg.type = "liquidity-provider" ∨
      cfg.type = "arbitrage" then
    SimpleTraderStrategy.create cfg.parameters
  else
    SimpleTraderStrategy.createDefault

/-- `activityLog.push` followed by the cap at 100 entries
(`slice(-100)`) — lines 305-310. -/
def appendCapped (log : List AgentActivity) (a : AgentActivity) :
    List AgentActivity :=
  let log2 := log ++ [a]
  if 100 < log2.length then log2.drop (log2.length - 100) else log2

/-- `logActivity` — lines 302-314: no-op when the agent is unknown. -/
def logActivity (s : SystemState) (agentId : String) (act : AgentActivity) :
    SystemState :=
  match lookupAgent s.agents agentId with
  | none => s
  | some a =>
      { s with
        agents := setAgent s.agents agentId
          { a with activityLog := appendCapped a.activityLog act } }

/-- `createAgent` — lines 26-54.  The generated wallet public key and
agent id are parameters (they come from the keypair generator and the
clock).  No validation of the strategy configuration is performed. -/
def createAgent (s : SystemState) (agentId pk : String)
    (cfg : AgentStrategyCfg) : SystemState :=
  let s1 := { s with wallets := createWallet s.wallets pk }
  let agent : Agent :=
    { id := agentId, walletPublicKey := pk, strategy := cfg,
      status := AgentStatus.stopped, activityLog := [] }
  let s2 := { s1 with agents := setAgent s1.agents agentId agent }
  logActivity s2 agentId
    { action := "created", decision := Decision.created,
      result := ActivityResult.success }

/-- Lines 179-182 of `executeDecisionCycle`: build the strategy instance
from the stored configuration (a fresh instance on every cycle) and
evaluate it. -/
def decideAction (a : Agent) (price bal : ℚ) : StrategyAction :=
  ((createStrategyInstance a.strategy).evaluate price bal).1

/-- `executeTrade` — lines 244-261: run the mock swap, selling from SOL
on a buy and into SOL on a sell (the constant slippage argument carries
no behaviour and is not modelled). -/
def executeTrade (L : Ledger) (pk : String) (side : TradeSide)
    (amount : ℚ) : Except String String × Ledger :=
  executeSwap
    { fromToken := if side = TradeSide.buy then "SOL" else "TOKEN",
      toToken := if side = TradeSide.buy then "TOKEN" else "SOL",
      amount := amount } pk L

/-- `updateWalletBalance` — lines 266-279: refresh balance and token
balances from the external blockchain client; any error is caught and
leaves the ledger as is (`ext` is `none` when the external call fails;
the case where only the second of the two external reads fails is not
distinguished). -/
def applyRefresh (s : SystemState) (pk : String)
    (ext : Option (ℚ × List TokenBalance)) : SystemState :=
  match ext with
  | none => s
  | some (b, t) =>
      { s with
        wallets := updateTokenBalances (updateBalance s.wallets pk b) pk t }

/-- The trade branch of `executeDecisionCycle` (lines 184-217): execute
the trade, log success and refresh the balance, or log the failure. -/
def cycleTrade (s : SystemState) (agentId pk : String) (side : TradeSide)
    (amount : ℚ) (ext : Option (ℚ × List TokenBalance)) : SystemState :=
  -- `action.details.amount || 0.1`
  let amt := if amount = 0 then (1/10 : ℚ) else amount
  match executeTrade s.wallets pk side amt with
  | (Except.ok _sig, L2) =>
      let s2 := logActivity { s with wallets := L2 } agentId
        { action := "trade",
          decision := match side with
            | TradeSide.buy => Decision.buyDecision amount
            | TradeSide.sell => Decision.sellDecision amount,
          result := ActivityResult.success }
      applyRefresh s2 pk ext
  | (Except.error _e, L2) =>
      logActivity { s with wallets := L2 } agentId
        { action := "trade", decision := Decision.tradeFailed,
          result := ActivityResult.failure }

/-- `executeDecisionCycle` — lines 162-239.  `price` is the market tick
delivered by the generator; `ext` feeds the post-trade balance
refresh. -/
def executeDecisionCycle (s : SystemState) (agentId : String) (price : ℚ)
    (ext : Option (ℚ × List TokenBalance)) : SystemState :=
  match lookupAgent s.agents agentId with
  | none => s
  | some a =>
    if a.status ≠ AgentStatus.active then s
    else
      match lookupWallet s.wallets a.walletPublicKey with
      | none =>
          -- `throw new Error("Wallet not found")` reaches the outer catch
          logActivity s agentId
            { action := "error", decision := Decision.cycleFailed,
              result := ActivityResult.failure }
      | some w =>
          match decideAction a price w.balance with
          | StrategyAction.trade side amount =>
              cycleTrade s agentId a.walletPublicKey side amount ext
          | StrategyAction.wait r =>
              logActivity s agentId
                { action := "wait",
                  decision := match r with
                    | WaitReason.insufficientBalance =>
                        Decision.insufficientBalance
                    | WaitReason.priceInRange => Decision.priceInRange,
                  result := ActivityResult.success }

/-- `startAgent` — lines 60-85: not-found throws; already-active is a
no-op; otherwise set status, register the interval
(`startDecisionLoop`), and run the first cycle immediately. -/
def startAgent (s : SystemState) (agentId : String) (price : ℚ)
    (ext : Option (ℚ × List TokenBalance)) :
    Except String Unit × SystemState :=
  match lookupAgent s.agents agentId with
  | none => (Except.error ("Agent not found: " ++ agentId), s)
  | some a =>
    if a.status = AgentStatus.active then (Except.ok (), s)
    else
      let s1 := { s with
        agents := setAgent s.agents agentId { a with status := AgentStatus.active },
        activeAgentIds := addId s.activeAgentIds agentId }
      let s2 := logActivity s1 agentId
        { action := "started", decision := Decision.started,
          result := ActivityResult.success }
      let s3 := { s2 with decisionIntervals := addId s2.decisionIntervals agentId }
      (Except.ok (), executeDecisionCycle s3 agentId price ext)

/-- `stopAgent` — lines 91-116: not-found throws; otherwise clear the
interval if present, set status stopped, and log. -/
def stopAgent (s : SystemState) (agentId : String) :
    Except String Unit × SystemState :=
  match lookupAgent s.agents agentId with
  | none => (Except.error ("Agent not found: " ++ agentId), s)
  | some a =>
      let s1 := { s with decisionIntervals := removeId s.decisionIntervals agentId }
      let s2 := { s1 with
        agents := setAgent s1.agents agentId { a with status := AgentStatus.stopped },
        activeAgentIds := removeId s1.activeAgentIds agentId }
      (Except.ok (), logActivity s2 agentId
        { action := "stopped", decision := Decision.stopped,
          result := ActivityResult.success })

/-- The loop body of `stopAllAgents`: iterate the snapshot of active ids
in order, awaiting each stop; an exception propagates out of the loop. -/
def stopAllAgentsGo : List String → SystemState →
    Except String Unit × SystemState
  | [], s => (Except.ok (), s)
  | id :: rest, s =>
      match stopAgent s id with
      | (Except.ok _, s2) => stopAllAgentsGo rest s2
      | (Except.error e, s2) => (Except.error e, s2)

/-- `stopAllAgents` — lines 121-126: `Array.from(this.activeAgentIds)`
is snapshotted before the loop. -/
def stopAllAgents (s : SystemState) : Except String Unit × SystemState :=
  stopAllAgentsGo s.activeAgentIds s

/-- `deleteAgent` — lines 320-328: stop first when the id is in the
active set (an exception from that stop propagates), then remove the
agent from the registry. -/
def deleteAgent (s : SystemState) (agentId : String) :
    Except String Unit × SystemState :=
  if agentId ∈ s.activeAgentIds then
    match stopAgent s agentId with
    | (Except.error e, s2) => (Except.error e, s2)
    | (Except.ok _, s2) =>
        (Except.ok (), { s2 with agents := removeAgent s2.agents agentId })
  else
    (Except.ok (), { s with agents := removeAgent s.agents agentId })

/-! ### Operation alphabet and reachability -/

/-- One public controller operation together with the external inputs it
consumes (generated ids, market ticks, external balance reads). -/
inductive ControllerOp
  | create (agentId pk : String) (cfg : AgentStrategyCfg)
  | start (agentId : String) (price : ℚ) (ext : Option (ℚ × List TokenBalance))
  | stop (agentId : String)
  | stopAll
  | cycle (agentId : String) (price : ℚ) (ext : Option (ℚ × List TokenBalance))
  | delete (agentId : String)

def applyOp (s : SystemState) : ControllerOp → SystemState
  | ControllerOp.create agentId pk cfg =>
      -- `createAgent` derives the id from the clock plus a random
      -- suffix ("Generate unique agent ID"); a create therefore never
      -- reuses the id of a registered agent, which the embedding
      -- expresses by applying the op only when the id is fresh
      if lookupAgent s.agents agentId = none then createAgent s agentId pk cfg
      else s
  | ControllerOp.start agentId price ext => (startAgent s agentId price ext).2
  | ControllerOp.stop agentId => (stopAgent s agentId).2
  | ControllerOp.stopAll => (stopAllAgents s).2
  | ControllerOp.cycle agentId price ext => executeDecisionCycle s agentId price ext
  | ControllerOp.delete agentId => (deleteAgent s agentId).2

def applyOps (s : SystemState) (ops : List ControllerOp) : SystemState :=
  ops.foldl applyOp s

/-! ## Helper lemmas on the association-list maps -/

lemma lookupWallet_updateBalance_self (L : Ledger) (pk : String) (b : ℚ) :
    lookupWallet (updateBalance L pk b) pk =
      (lookupWallet L pk).map (fun w => { w with balance := b }) := by
  induction L with
  | nil => rfl
  | cons kw rest ih =>
      obtain ⟨k, w⟩ := kw
      by_cases h : k = pk <;> simp [updateBalance, lookupWallet, h, ih]

lemma lookupWallet_updateBalance_other (L : Ledger) (pk q : String) (b : ℚ)
    (hq : q ≠ pk) :
    lookupWallet (updateBalance L pk b) q = lookupWallet L q := by
  induction L with
  | nil => rfl
  | cons kw rest ih =>
      obtain ⟨k, w⟩ := kw
      by_cases h : k = pk
      · subst h
        simp [updateBalance, lookupWallet, Ne.symm hq, ih]
      · by_cases h2 : k = q <;>
          simp [updateBalance, lookupWallet, h, h2, hq, ih]

lemma lookupAgent_setAgent_self (l : List (String × Agent)) (id : String)
    (a : Agent) : lookupAgent (setAgent l id a) id = some a := by
  induction l with
  | nil => simp [setAgent, lookupAgent]
  | cons kw rest ih =>
      obtain ⟨k, b⟩ := kw
      by_cases h : k = id <;> simp [setAgent, lookupAgent, h, ih]

lemma lookupAgent_setAgent_other (l : List (String × Agent)) (id q : String)
    (a : Agent) (hq : q ≠ id) :
    lookupAgent (setAgent l id a) q = lookupAgent l q := by
  induction l with
  | nil => simp [setAgent, lookupAgent, Ne.symm hq]
  | cons kw rest ih =>
      obtain ⟨k, b⟩ := kw
      by_cases h : k = id
      · subst h
        simp [setAgent, lookupAgent, Ne.symm hq]
      · by_cases h2 : k = q <;> simp [setAgent, lookupAgent, h, h2, hq, ih]

lemma lookupAgent_removeAgent_self (l : List (String × Agent)) (id : String) :
    lookupAgent (removeAgent l id) id = none := by
  induction l with
  | nil => rfl
  | cons kw rest ih =>
      obtain ⟨k, b⟩ := kw
      by_cases h : k = id <;> simp [removeAgent, lookupAgent, h, ih] <;>
        simp [removeAgent] at ih <;> exact ih

lemma lookupAgent_removeAgent_other (l : List (String × Agent)) (id q : String)
    (hq : q ≠ id) :
    lookupAgent (removeAgent l id) q = lookupAgent l q := by
  induction l with
  | nil => rfl
  | cons kw rest ih =>
      obtain ⟨k, b⟩ := kw
      by_cases h : k = id
      · subst h
        simp [removeAgent, lookupAgent, Ne.symm hq] at ih ⊢
        exact ih
      · by_cases h2 : k = q
        · simp [removeAgent, lookupAgent, h, h2, hq] at ih ⊢
        · simp [removeAgent, lookupAgent, h, h2, hq] at ih ⊢
          exact ih

lemma mem_addId (l : List String) (id q : String) :
    q ∈ addId l id ↔ q ∈ l ∨ q = id := by
  by_cases h : id ∈ l
  · simp only [addId, if_pos h]
    exact ⟨Or.inl, fun hq => hq.elim (fun h1 => h1) (fun hqe => hqe ▸ h)⟩
  · simp [addId, h]

lemma mem_removeId (l : List String) (id q : String) :
    q ∈ removeId l id ↔ q ∈ l ∧ q ≠ id := by
  simp [removeId]

/-! ### Case lemmas for the strategy evaluation -/

lemma evaluate_insufficient (s : SimpleTraderStrategy) (price bal : ℚ)
    (h1 : bal < s.minBalance) :
    s.evaluate price bal = (StrategyAction.wait WaitReason.insufficientBalance, s) := by
  unfold SimpleTraderStrategy.evaluate
  rw [if_pos h1]

lemma evaluate_buy (s : SimpleTraderStrategy) (price bal : ℚ)
    (h1 : ¬bal < s.minBalance) (h2 : price < s.buyThreshold)
    (h3 : s.lastAction ≠ LastAction.buy) :
    s.evaluate price bal =
      (StrategyAction.trade TradeSide.buy (min (bal * (1/10)) (1/2)),
        { s with lastAction := LastAction.buy }) := by
  unfold SimpleTraderStrategy.evaluate
  rw [if_neg h1, if_pos ⟨h2, h3⟩]

lemma evaluate_sell (s : SimpleTraderStrategy) (price bal : ℚ)
    (h1 : ¬bal < s.minBalance)
    (h2 : ¬(price < s.buyThreshold ∧ s.lastAction ≠ LastAction.buy))
    (h3 : price > s.sellThreshold) (h4 : s.lastAction ≠ LastAction.sell) :
    s.evaluate price bal =
      (StrategyAction.trade TradeSide.sell (1/10),
        { s with lastAction := LastAction.sell }) := by
  unfold SimpleTraderStrategy.evaluate
  rw [if_neg h1, if_neg h2, if_pos ⟨h3, h4⟩]

lemma evaluate_wait (s : SimpleTraderStrategy) (price bal : ℚ)
    (h1 : ¬bal < s.minBalance)
    (h2 : ¬(price < s.buyThreshold ∧ s.lastAction ≠ LastAction.buy))
    (h3 : ¬(price > s.sellThreshold ∧ s.lastAction ≠ LastAction.sell)) :
    s.evaluate price bal = (StrategyAction.wait WaitReason.priceInRange, s) := by
  unfold SimpleTraderStrategy.evaluate
  rw [if_neg h1, if_neg h2, if_neg h3]

lemma createStrategyInstance_simpleTrader (p : StrategyParams) :
    createStrategyInstance ⟨"simple-trader", p⟩ =
      SimpleTraderStrategy.create p := by
  unfold createStrategyInstance
  rw [if_pos (Or.inl rfl)]

/-! ### Case lemmas for swap execution -/

lemma executeSwap_wallet_missing (p : SwapParams) (pk : String) (L : Ledger)
    (hw : lookupWallet L pk = none) :
    executeSwap p pk L = (Except.error swapInvalidAccountsMsg, L) := by
  unfold executeSwap validateAccounts
  rw [hw]
  rfl

lemma executeSwap_insufficient (p : SwapParams) (pk : String) (L : Ledger)
    (w : WalletInfo) (hw : lookupWallet L pk = some w)
    (hfrom : p.fromToken = "SOL") (hlt : w.balance < p.amount) :
    executeSwap p pk L = (Except.error swapInvalidAccountsMsg, L) := by
  unfold executeSwap validateAccounts
  rw [hw]
  dsimp only
  have hcond : (!(p.fromToken = "SOL" ∧ w.balance < p.amount : Bool)) = false := by
    simp [hfrom, hlt]
  rw [hcond]
  rfl

lemma executeSwap_ok_sol (p : SwapParams) (pk : String) (L : Ledger)
    (w : WalletInfo) (hw : lookupWallet L pk = some w)
    (hfrom : p.fromToken = "SOL") (hge : ¬w.balance < p.amount) :
    executeSwap p pk L =
      (Except.ok "mock_swap", updateBalance L pk (w.balance - p.amount)) := by
  unfold executeSwap validateAccounts getWalletBalance updateBalancesAfterSwap
  rw [hw]
  dsimp only
  have hcond : (!(p.fromToken = "SOL" ∧ w.balance < p.amount : Bool)) = true := by
    simp [hge]
  rw [hcond]
  simp [hfrom]

lemma executeSwap_ok_notSol (p : SwapParams) (pk : String) (L : Ledger)
    (w : WalletInfo) (hw : lookupWallet L pk = some w)
    (hfrom : p.fromToken ≠ "SOL") :
    executeSwap p pk L = (Except.ok "mock_swap", L) := by
  unfold executeSwap validateAccounts getWalletBalance updateBalancesAfterSwap
  rw [hw]
  dsimp only
  have hcond : (!(p.fromToken = "SOL" ∧ w.balance < p.amount : Bool)) = true := by
    simp [hfrom]
  rw [hcond]
  simp [hfrom]

lemma executeTrade_buy_ok (L : Ledger) (pk : String) (amount : ℚ)
    (w : WalletInfo) (hw : lookupWallet L pk = some w)
    (hge : ¬w.balance < amount) :
    executeTrade L pk TradeSide.buy amount =
      (Except.ok "mock_swap", updateBalance L pk (w.balance - amount)) := by
  unfold executeTrade
  exact executeSwap_ok_sol _ pk L w hw rfl hge

lemma executeTrade_sell_ok (L : Ledger) (pk : String) (amount : ℚ)
    (w : WalletInfo) (hw : lookupWallet L pk = some w) :
    executeTrade L pk TradeSide.sell amount = (Except.ok "mock_swap", L) := by
  unfold executeTrade
  exact executeSwap_ok_notSol _ pk L w hw (by simp)

/-! ### Case lemmas for the decision cycle -/

lemma executeDecisionCycle_no_agent (s : SystemState) (agentId : String)
    (price : ℚ) (ext : Option (ℚ × List TokenBalance))
    (ha : lookupAgent s.agents agentId = none) :
    executeDecisionCycle s agentId price ext = s := by
  unfold executeDecisionCycle
  rw [ha]

lemma executeDecisionCycle_not_active (s : SystemState) (agentId : String)
    (price : ℚ) (ext : Option (ℚ × List TokenBalance)) (a : Agent)
    (ha : lookupAgent s.agents agentId = some a)
    (hst : a.status ≠ AgentStatus.active) :
    executeDecisionCycle s agentId price ext = s := by
  unfold executeDecisionCycle
  rw [ha]
  simp only [if_pos hst]

lemma executeDecisionCycle_no_wallet (s : SystemState) (agentId : String)
    (price : ℚ) (ext : Option (ℚ × List TokenBalance)) (a : Agent)
    (ha : lookupAgent s.agents agentId = some a)
    (hst : a.status = AgentStatus.active)
    (hw : lookupWallet s.wallets a.walletPublicKey = none) :
    executeDecisionCycle s agentId price ext =
      logActivity s agentId
        { action := "error", decision := Decision.cycleFailed,
          result := ActivityResult.failure } := by
  unfold executeDecisionCycle
  rw [ha]
  simp only [hst, ne_eq, not_true_eq_false, if_false, hw]

lemma executeDecisionCycle_trade (s : SystemState) (agentId : String)
    (price : ℚ) (ext : Option (ℚ × List TokenBalance)) (a : Agent)
    (w : WalletInfo) (side : TradeSide) (amount : ℚ)
    (ha : lookupAgent s.agents agentId = some a)
    (hst : a.status = AgentStatus.active)
    (hw : lookupWallet s.wallets a.walletPublicKey = some w)
    (hd : decideAction a price w.balance = StrategyAction.trade side amount) :
    executeDecisionCycle s agentId price ext =
      cycleTrade s agentId a.walletPublicKey side amount ext := by
  unfold executeDecisionCycle
  rw [ha]
  simp only [hst, ne_eq, not_true_eq_false, if_false, hw, hd]

lemma executeDecisionCycle_wait (s : SystemState) (agentId : String)
    (price : ℚ) (ext : Option (ℚ × List TokenBalance)) (a : Agent)
    (w : WalletInfo) (r : WaitReason)
    (ha : lookupAgent s.agents agentId = some a)
    (hst : a.status = AgentStatus.active)
    (hw : lookupWallet s.wallets a.walletPublicKey = some w)
    (hd : decideAction a price w.balance = StrategyAction.wait r) :
    executeDecisionCycle s agentId price ext =
      logActivity s agentId
        { action := "wait",
          decision := match r with
            | WaitReason.insufficientBalance => Decision.insufficientBalance
            | WaitReason.priceInRange => Decision.priceInRange,
          result := ActivityResult.success } := by
  unfold executeDecisionCycle
  rw [ha]
  simp only [hst, ne_eq, not_true_eq_false, if_false, hw, hd]
  cases r <;> rfl

lemma cycleTrade_ok (s : SystemState) (agentId pk : String) (side : TradeSide)
    (amount : ℚ) (ext : Option (ℚ × List TokenBalance)) (sig : String)
    (L2 : Ledger) (hamt : ¬amount = 0)
    (hsw : executeTrade s.wallets pk side amount = (Except.ok sig, L2)) :
    cycleTrade s agentId pk side amount ext =
      applyRefresh
        (logActivity { s with wallets := L2 } agentId
          { action := "trade",
            decision := match side with
              | TradeSide.buy => Decision.buyDecision amount
              | TradeSide.sell => Decision.sellDecision amount,
            result := ActivityResult.success }) pk ext := by
  unfold cycleTrade
  simp only [if_neg hamt, hsw]
  cases side <;> rfl

lemma cycleTrade_err (s : SystemState) (agentId pk : String) (side : TradeSide)
    (amount : ℚ) (ext : Option (ℚ × List TokenBalance)) (e : String)
    (L2 : Ledger) (hamt : ¬amount = 0)
    (hsw : executeTrade s.wallets pk side amount = (Except.error e, L2)) :
    cycleTrade s agentId pk side amount ext =
      logActivity { s with wallets := L2 } agentId
        { action := "trade", decision := Decision.tradeFailed,
          result := ActivityResult.failure } := by
  unfold cycleTrade
  simp only [if_neg hamt, hsw]

/-! ## C8: evaluate agrees with the four-step reference procedure -/

/-- C8: the strategy's `evaluate(tick, walletBalance)` equals the
four-step reference decision procedure of the specification, checked in
order: insufficient balance first, then the buy check (amount
min(10% of balance, 0.5)), then the sell check (fixed amount 0.1), else
a wait citing the normal range; the buy check strictly precedes the sell
check. -/
theorem evaluate_eq_specEvaluate (s : SimpleTraderStrategy)
    (price walletBalance : ℚ) :
    SimpleTraderStrategy.evaluate s price walletBalance =
      specEvaluate s price walletBalance := by
  obtain ⟨bt, st, mb, la⟩ := s
  simp only [SimpleTraderStrategy.evaluate, specEvaluate, specEvaluate.step3,
    gt_iff_lt, ne_eq, mul_one_div]
  by_cases h1 : walletBalance < mb <;>
    by_cases h2 : price < bt <;>
    by_cases h3 : la = LastAction.buy <;>
    by_cases h4 : st < price <;>
    by_cases h5 : la = LastAction.sell <;>
    simp_all

/-! ## C10: explicit zero parameters fall back to the defaults -/

/-- C10: an explicitly supplied 0 for any strategy parameter is replaced
by the documented default (90, 110, 0.1) exactly as if the parameter
were absent, because defaults are applied by falsy-coalescing; in
particular minBalance = 0 still blocks trading below balance 0.1. -/
theorem zero_params_use_defaults (p : StrategyParams) (price bal : ℚ)
    (hbal : bal < 1/10) :
    SimpleTraderStrategy.create { p with buyThreshold? := some 0 } =
        SimpleTraderStrategy.create { p with buyThreshold? := none } ∧
    SimpleTraderStrategy.create { p with sellThreshold? := some 0 } =
        SimpleTraderStrategy.create { p with sellThreshold? := none } ∧
    SimpleTraderStrategy.create { p with minBalance? := some 0 } =
        SimpleTraderStrategy.create { p with minBalance? := none } ∧
    SimpleTraderStrategy.create ⟨some 0, some 0, some 0⟩ =
        SimpleTraderStrategy.createDefault ∧
    SimpleTraderStrategy.createDefault =
        ⟨90, 110, 1/10, LastAction.wait⟩ ∧
    ((SimpleTraderStrategy.create
        { p with minBalance? := some 0 }).evaluate price bal).1 =
      StrategyAction.wait WaitReason.insufficientBalance := by
  have hmb : (SimpleTraderStrategy.create
      { p with minBalance? := some 0 }).minBalance = 1/10 := by
    simp [SimpleTraderStrategy.create, orDefault]
  refine ⟨?_, ?_, ?_, ?_, ?_, ?_⟩
  · simp [SimpleTraderStrategy.create, orDefault]
  · simp [SimpleTraderStrategy.create, orDefault]
  · simp [SimpleTraderStrategy.create, orDefault]
  · simp [SimpleTraderStrategy.create, SimpleTraderStrategy.createDefault,
      orDefault]
  · simp [SimpleTraderStrategy.create, SimpleTraderStrategy.createDefault,
      orDefault]
  · unfold SimpleTraderStrategy.evaluate
    rw [if_pos (show bal < (SimpleTraderStrategy.create
      { p with minBalance? := some 0 }).minBalance by rw [hmb]; exact hbal)]

/-- Witness for C10 at concrete inputs. -/
theorem zero_params_use_defaults_witness :
    SimpleTraderStrategy.create ⟨some 0, none, none⟩ =
        SimpleTraderStrategy.create ⟨none, none, none⟩ ∧
    SimpleTraderStrategy.create ⟨none, some 0, none⟩ =
        SimpleTraderStrategy.create ⟨none, none, none⟩ ∧
    SimpleTraderStrategy.create ⟨none, none, some 0⟩ =
        SimpleTraderStrategy.create ⟨none, none, none⟩ ∧
    SimpleTraderStrategy.create ⟨some 0, some 0, some 0⟩ =
        SimpleTraderStrategy.createDefault ∧
    SimpleTraderStrategy.createDefault =
        ⟨90, 110, 1/10, LastAction.wait⟩ ∧
    ((SimpleTraderStrategy.create ⟨none, none, some 0⟩).evaluate 100 (1/20)).1 =
      StrategyAction.wait WaitReason.insufficientBalance :=
  zero_params_use_defaults ⟨none, none, none⟩ 100 (1/20) (by norm_num)

/-! ## C3: threshold validation at creation

The `SimpleTraderStrategy` constructor performs no validation, and
neither does `AgentController.createAgent`; the invariant
buyThreshold < sellThreshold is checked only by the agent-creation UI
modal before it calls `createAgent`. -/

/-- `handleCreate` input validation in AgentCreationModal (lines 155-185
of the component file): rejects buyThreshold ≥ sellThreshold and
negative minBalance before `createAgent` is ever called (the NaN checks
on the raw text inputs are not modelled). -/
def agentCreationModalAccepts (buy sell minB : ℚ) : Bool :=
  if buy ≥ sell then false
  else if minB < 0 then false
  else true

/-- A strategy configuration violating buyThreshold < sellThreshold. -/
def invertedCfg : AgentStrategyCfg :=
  { type := "simple-trader",
    parameters := ⟨some 110, some 90, some (1/20)⟩ }

/-- Counterexample to C3: constructing `SimpleTraderStrategy` with
buyThreshold = 110 ≥ sellThreshold = 90 succeeds (no InvalidInput
failure exists in the constructor), and `createAgent` likewise stores an
agent carrying the inverted configuration. -/
theorem creation_accepts_inverted_thresholds :
    SimpleTraderStrategy.create ⟨some 110, some 90, some (1/20)⟩ =
      ⟨110, 90, 1/20, LastAction.wait⟩ ∧
    (lookupAgent (createAgent initialState "a1" "w1" invertedCfg).agents
        "a1").map Agent.strategy = some invertedCfg ∧
    (lookupAgent (createAgent initialState "a1" "w1" invertedCfg).agents
        "a1").map Agent.status = some AgentStatus.stopped := by
  refine ⟨?_, ?_, ?_⟩
  · norm_num [SimpleTraderStrategy.create, orDefault]
  · norm_num [createAgent, invertedCfg, initialState, logActivity, lookupAgent,
      setAgent, createWallet, appendCapped]
  · norm_num [createAgent, invertedCfg, initialState, logActivity, lookupAgent,
      setAgent, createWallet, appendCapped]

/-- C3 amended: neither the strategy constructor nor
`AgentController.createAgent` validates buyThreshold < sellThreshold —
creation succeeds for every configuration; the invariant is enforced
only by the agent-creation UI modal, which rejects
buyThreshold ≥ sellThreshold before calling `createAgent`. -/
theorem creation_unvalidated_modal_rejects (buy sell minB : ℚ)
    (s : SystemState) (agentId pk : String)
    (h : sell ≤ buy) :
    agentCreationModalAccepts buy sell minB = false ∧
    SimpleTraderStrategy.create ⟨some buy, some sell, some minB⟩ =
      ⟨orDefault (some buy) 90, orDefault (some sell) 110,
        orDefault (some minB) (1/10), LastAction.wait⟩ ∧
    (lookupAgent (createAgent s agentId pk
        ⟨"simple-trader", ⟨some buy, some sell, some minB⟩⟩).agents
      agentId).isSome = true := by
  refine ⟨?_, rfl, ?_⟩
  · simp [agentCreationModalAccepts, h]
  · unfold createAgent logActivity
    cases hl : lookupAgent (setAgent s.agents agentId
        { id := agentId, walletPublicKey := pk,
          strategy := ⟨"simple-trader", ⟨some buy, some sell, some minB⟩⟩,
          status := AgentStatus.stopped, activityLog := [] }) agentId <;>
      simp_all [lookupAgent_setAgent_self]

/-- Witness for the amended C3 at a concrete inverted configuration. -/
theorem creation_unvalidated_modal_rejects_witness :
    agentCreationModalAccepts 110 90 (1/20) = false ∧
    SimpleTraderStrategy.create ⟨some 110, some 90, some (1/20)⟩ =
      ⟨orDefault (some 110) 90, orDefault (some 90) 110,
        orDefault (some (1/20)) (1/10), LastAction.wait⟩ ∧
    (lookupAgent (createAgent initialState "a2" "w2"
        ⟨"simple-trader", ⟨some 110, some 90, some (1/20)⟩⟩).agents
      "a2").isSome = true :=
  creation_unvalidated_modal_rejects 110 90 (1/20) initialState "a2" "w2"
    (by norm_num)

/-! ## C1: the strategy debounce across decision cycles

`SimpleTraderStrategy.lastAction` debounces consecutive calls on one
instance, but `executeDecisionCycle` builds a fresh strategy instance on
every cycle, so the debounce never carries over from one decision cycle
to the next. -/

/-- A running agent with the default simple-trader strategy. -/
def demoAgent (log : List AgentActivity) : Agent :=
  { id := "a", walletPublicKey := "w",
    strategy := { type := "simple-trader", parameters := ⟨none, none, none⟩ },
    status := AgentStatus.active, activityLog := log }

/-- Controller state with one active agent and one funded wallet. -/
def demoState (log : List AgentActivity) (bal : ℚ) : SystemState :=
  { agents := [("a", demoAgent log)], activeAgentIds := ["a"],
    decisionIntervals := ["a"], wallets := [("w", ⟨bal, []⟩)] }

/-- The activity logged by a successful 0.5-SOL buy. -/
def buyActivity : AgentActivity :=
  ⟨"trade", Decision.buyDecision (1/2), ActivityResult.success⟩

/-- One decision cycle of the demo agent at price 80 with ample balance
executes a 0.5-SOL buy. -/
lemma demoCycle (log : List AgentActivity) (bal : ℚ)
    (hmb : ¬bal < 1/10) (hge : ¬bal < 1/2)
    (hmin : min (bal * (1/10)) (1/2) = 1/2) :
    executeDecisionCycle (demoState log bal) "a" 80 none =
      demoState (appendCapped log buyActivity) (bal - 1/2) := by
  have hd : decideAction (demoAgent log) 80 bal =
      StrategyAction.trade TradeSide.buy (1/2) := by
    unfold decideAction
    rw [show (demoAgent log).strategy =
          ⟨"simple-trader", ⟨none, none, none⟩⟩ from rfl,
      createStrategyInstance_simpleTrader,
      show SimpleTraderStrategy.create ⟨none, none, none⟩ =
          ⟨90, 110, 1/10, LastAction.wait⟩ from rfl,
      evaluate_buy _ 80 bal (by exact hmb) (by norm_num) (by decide)]
    rw [hmin]
  have hw : lookupWallet (demoState log bal).wallets "w" = some ⟨bal, []⟩ := by
    simp [demoState, lookupWallet]
  have hsw : executeTrade (demoState log bal).wallets "w" TradeSide.buy (1/2) =
      (Except.ok "mock_swap", [("w", ⟨bal - 1/2, []⟩)]) := by
    rw [executeTrade_buy_ok _ _ _ ⟨bal, []⟩ hw (by exact hge)]
    simp [demoState, updateBalance]
  rw [executeDecisionCycle_trade (demoState log bal) "a" 80 none
      (demoAgent log) ⟨bal, []⟩ TradeSide.buy (1/2)
      (by simp [demoState, lookupAgent]) rfl hw hd,
    show (demoAgent log).walletPublicKey = "w" from rfl,
    cycleTrade_ok _ _ _ _ _ _ "mock_swap" _ (by norm_num) hsw]
  simp [applyRefresh, logActivity, demoState, demoAgent, lookupAgent, setAgent]
  norm_num [buyActivity]

/-- Counterexample to C1: two consecutive decision cycles of the same
agent, both observing price 80 < buyThreshold 90 with the balance check
passing and no sell in between, each log a successful buy — the second
cycle does not produce "wait", because the controller rebuilds the
strategy instance (resetting lastAction) every cycle. -/
theorem consecutive_cycles_both_buy :
    executeDecisionCycle (demoState [] 10) "a" 80 none =
      demoState [buyActivity] (19/2) ∧
    executeDecisionCycle (demoState [buyActivity] (19/2)) "a" 80 none =
      demoState [buyActivity, buyActivity] 9 ∧
    (lookupAgent (executeDecisionCycle
        (executeDecisionCycle (demoState [] 10) "a" 80 none)
        "a" 80 none).agents "a").map Agent.activityLog =
      some [buyActivity, buyActivity] := by
  have h1 : executeDecisionCycle (demoState [] 10) "a" 80 none =
      demoState [buyActivity] (19/2) := by
    have h := demoCycle [] 10 (by norm_num) (by norm_num)
      (by rw [min_def]; norm_num)
    rw [h]
    norm_num [appendCapped]
  have h2 : executeDecisionCycle (demoState [buyActivity] (19/2)) "a" 80 none =
      demoState [buyActivity, buyActivity] 9 := by
    have h := demoCycle [buyActivity] (19/2) (by norm_num) (by norm_num)
      (by rw [min_def]; norm_num)
    rw [h]
    norm_num [appendCapped]
  refine ⟨h1, h2, ?_⟩
  rw [h1, h2]
  simp [demoState, demoAgent, lookupAgent]

/-- C1 amended: the debounce holds only within a single strategy
instance — after an evaluate call that buys, a second call on the same
instance with price below buyThreshold never buys again (it waits,
insufficient balance or normal range) as long as buyThreshold ≤
sellThreshold.  Across controller decision cycles the strategy instance
is recreated and lastAction resets, so two consecutive cycles with low
price can both buy (see the counterexample). -/
theorem strategy_debounce_within_instance (s : SimpleTraderStrategy)
    (p1 b1 p2 b2 : ℚ)
    (hbuy : ((s.evaluate p1 b1).1).isBuy = true)
    (hord : s.buyThreshold ≤ s.sellThreshold)
    (hp2 : p2 < s.buyThreshold) :
    ∃ r, (((s.evaluate p1 b1).2).evaluate p2 b2).1 = StrategyAction.wait r := by
  by_cases h1 : b1 < s.minBalance
  · rw [evaluate_insufficient s p1 b1 h1] at hbuy
    simp [StrategyAction.isBuy] at hbuy
  · by_cases h2 : p1 < s.buyThreshold ∧ s.lastAction ≠ LastAction.buy
    · rw [evaluate_buy s p1 b1 h1 h2.1 h2.2]
      dsimp only
      by_cases hb2 : b2 < s.minBalance
      · rw [evaluate_insufficient
          { s with lastAction := LastAction.buy } p2 b2 hb2]
        exact ⟨WaitReason.insufficientBalance, rfl⟩
      · have hns : ¬(p2 > ({ s with lastAction :=
              LastAction.buy } : SimpleTraderStrategy).sellThreshold ∧
            ({ s with lastAction :=
              LastAction.buy } : SimpleTraderStrategy).lastAction ≠
              LastAction.sell) := by
          intro hc
          exact absurd hc.1 (not_lt.mpr (le_of_lt (lt_of_lt_of_le hp2 hord)))
        rw [evaluate_wait
          { s with lastAction := LastAction.buy } p2 b2 hb2 (by simp) hns]
        exact ⟨WaitReason.priceInRange, rfl⟩
    · by_cases h3 : p1 > s.sellThreshold ∧ s.lastAction ≠ LastAction.sell
      · rw [evaluate_sell s p1 b1 h1 h2 h3.1 h3.2] at hbuy
        simp [StrategyAction.isBuy] at hbuy
      · rw [evaluate_wait s p1 b1 h1 h2 h3] at hbuy
        simp [StrategyAction.isBuy] at hbuy

/-- Witness for the amended C1 with the default strategy at price 80 and
balance 1 on both calls. -/
theorem strategy_debounce_within_instance_witness :
    ∃ r, ((((⟨90, 110, 1/10, LastAction.wait⟩ :
        SimpleTraderStrategy).evaluate 80 1).2).evaluate 80 1).1 =
      StrategyAction.wait r :=
  strategy_debounce_within_instance ⟨90, 110, 1/10, LastAction.wait⟩ 80 1 80 1
    (by rw [evaluate_buy _ 80 1 (by norm_num) (by norm_num) (by decide)]
        rfl)
    (by norm_num) (by norm_num)

/-! ## C4, C5, C6: swap validation, ledger effects, non-negative balance -/

/-- C4: a swap fails with the "invalid accounts" error exactly when the
wallet does not exist or, for a buy (SOL-funded swap), the balance is
below the trade amount; and on every failure the ledger is returned
unchanged (the throw happens before any mutation). -/
theorem executeSwap_failure_iff (L : Ledger) (p : SwapParams) (pk : String) :
    ((executeSwap p pk L).1 = Except.error swapInvalidAccountsMsg ↔
      lookupWallet L pk = none ∨
        (p.fromToken = "SOL" ∧
          ∃ w, lookupWallet L pk = some w ∧ w.balance < p.amount)) ∧
    ((executeSwap p pk L).1 = Except.error swapInvalidAccountsMsg →
      (executeSwap p pk L).2 = L) := by
  cases hw : lookupWallet L pk with
  | none =>
      rw [executeSwap_wallet_missing p pk L hw]
      exact ⟨by simp [hw], fun _ => rfl⟩
  | some w =>
      by_cases hfrom : p.fromToken = "SOL"
      · by_cases hlt : w.balance < p.amount
        · rw [executeSwap_insufficient p pk L w hw hfrom hlt]
          exact ⟨by simp [hw, hfrom, hlt], fun _ => rfl⟩
        · rw [executeSwap_ok_sol p pk L w hw hfrom hlt]
          refine ⟨by simp [hw, hlt], by simp⟩
      · rw [executeSwap_ok_notSol p pk L w hw hfrom]
        refine ⟨by simp [hw, hfrom], by simp⟩

/-- Witness for C4: swapping from a nonexistent wallet fails with the
invalid-accounts error and leaves the (empty) ledger unchanged. -/
theorem executeSwap_failure_iff_witness :
    (executeSwap ⟨"SOL", "TOKEN", 1⟩ "w" []).1 =
        Except.error swapInvalidAccountsMsg ∧
    (executeSwap ⟨"SOL", "TOKEN", 1⟩ "w" []).2 = ([] : Ledger) := by
  have h := executeSwap_failure_iff [] ⟨"SOL", "TOKEN", 1⟩ "w"
  have herr := h.1.mpr (Or.inl rfl)
  exact ⟨herr, h.2 herr⟩

/-- C5: on success, a buy (SOL-funded swap) decreases the wallet's SOL
balance by exactly the amount, leaving its token balances and every
other wallet unchanged; a sell (non-SOL-funded swap) succeeds with the
entire ledger unchanged. -/
theorem executeSwap_success_effect (L : Ledger) (p : SwapParams)
    (pk : String) (w : WalletInfo) (hw : lookupWallet L pk = some w) :
    (p.fromToken = "SOL" → ¬w.balance < p.amount →
      (executeSwap p pk L).1 = Except.ok "mock_swap" ∧
      lookupWallet (executeSwap p pk L).2 pk =
        some ⟨w.balance - p.amount, w.tokenBalances⟩ ∧
      ∀ q, q ≠ pk → lookupWallet (executeSwap p pk L).2 q =
        lookupWallet L q) ∧
    (p.fromToken ≠ "SOL" →
      (executeSwap p pk L).1 = Except.ok "mock_swap" ∧
      (executeSwap p pk L).2 = L) := by
  constructor
  · intro hfrom hge
    rw [executeSwap_ok_sol p pk L w hw hfrom hge]
    refine ⟨rfl, ?_, ?_⟩
    · rw [lookupWallet_updateBalance_self, hw]
      rfl
    · intro q hq
      exact lookupWallet_updateBalance_other L pk q _ hq
  · intro hfrom
    rw [executeSwap_ok_notSol p pk L w hw hfrom]
    exact ⟨rfl, rfl⟩

/-- Witness for C5: a concrete buy of 0.5 from a 1-SOL wallet and a
concrete sell on the same ledger. -/
theorem executeSwap_success_effect_witness :
    ((executeSwap ⟨"SOL", "TOKEN", 1/2⟩ "w" [("w", ⟨1, []⟩)]).1 =
        Except.ok "mock_swap" ∧
      lookupWallet (executeSwap ⟨"SOL", "TOKEN", 1/2⟩ "w"
          [("w", ⟨1, []⟩)]).2 "w" = some ⟨1 - 1/2, []⟩ ∧
      lookupWallet (executeSwap ⟨"SOL", "TOKEN", 1/2⟩ "w"
          [("w", ⟨1, []⟩)]).2 "v" = lookupWallet [("w", ⟨1, []⟩)] "v") ∧
    ((executeSwap ⟨"TOKEN", "SOL", 1/10⟩ "w" [("w", ⟨1, []⟩)]).1 =
        Except.ok "mock_swap" ∧
      (executeSwap ⟨"TOKEN", "SOL", 1/10⟩ "w" [("w", ⟨1, []⟩)]).2 =
        [("w", ⟨1, []⟩)]) := by
  have hbuy := (executeSwap_success_effect [("w", ⟨1, []⟩)]
    ⟨"SOL", "TOKEN", 1/2⟩ "w" ⟨1, []⟩ rfl).1 rfl (by norm_num)
  have hsell := (executeSwap_success_effect [("w", ⟨1, []⟩)]
    ⟨"TOKEN", "SOL", 1/10⟩ "w" ⟨1, []⟩ rfl).2 (by simp)
  exact ⟨⟨hbuy.1, hbuy.2.1, hbuy.2.2 "v" (by simp)⟩, hsell⟩

/-- C6: a buy that executes successfully leaves the wallet with a
non-negative balance: validation rejects amounts above the balance
before any mutation, and the post-buy balance is balance - amount ≥ 0. -/
theorem buy_balance_nonneg (L : Ledger) (p : SwapParams) (pk : String)
    (w w' : WalletInfo) (hw : lookupWallet L pk = some w)
    (hfrom : p.fromToken = "SOL")
    (hok : (executeSwap p pk L).1 = Except.ok "mock_swap")
    (hw' : lookupWallet (executeSwap p pk L).2 pk = some w') :
    0 ≤ w'.balance := by
  by_cases hlt : w.balance < p.amount
  · rw [executeSwap_insufficient p pk L w hw hfrom hlt] at hok
    simp at hok
  · rw [executeSwap_ok_sol p pk L w hw hfrom hlt] at hw'
    rw [lookupWallet_updateBalance_self, hw, Option.map_some'] at hw'
    have hball : w'.balance = w.balance - p.amount := by
      have := Option.some.inj hw'
      rw [← this]
    rw [hball]
    exact sub_nonneg.mpr (not_lt.mp hlt)

/-- Witness for C6 at a concrete buy: balance 1, amount 0.5. -/
theorem buy_balance_nonneg_witness :
    0 ≤ ((⟨1 - 1/2, []⟩ : WalletInfo)).balance :=
  buy_balance_nonneg [("w", ⟨1, []⟩)] ⟨"SOL", "TOKEN", 1/2⟩ "w"
    ⟨1, []⟩ ⟨1 - 1/2, []⟩ rfl rfl
    (by rw [executeSwap_ok_sol ⟨"SOL", "TOKEN", 1/2⟩ "w" [("w", ⟨1, []⟩)]
          ⟨1, []⟩ rfl rfl (by norm_num)])
    (by rw [executeSwap_ok_sol ⟨"SOL", "TOKEN", 1/2⟩ "w" [("w", ⟨1, []⟩)]
          ⟨1, []⟩ rfl rfl (by norm_num), lookupWallet_updateBalance_self]
        rfl)

/-! ## C7: the activity log stays capped at 100 entries -/

lemma lookupAgent_mem (l : List (String × Agent)) (id : String) (a : Agent)
    (h : lookupAgent l id = some a) : (id, a) ∈ l := by
  induction l with
  | nil => simp [lookupAgent] at h
  | cons kw rest ih =>
      obtain ⟨k, b⟩ := kw
      by_cases hk : k = id
      · subst hk
        simp [lookupAgent] at h
        simp [h]
      · simp [lookupAgent, hk] at h
        exact List.mem_cons_of_mem _ (ih h)

lemma mem_setAgent (l : List (String × Agent)) (id : String) (a : Agent)
    (ka : String × Agent) (h : ka ∈ setAgent l id a) :
    ka = (id, a) ∨ ka ∈ l := by
  induction l with
  | nil => simpa [setAgent] using h
  | cons kw rest ih =>
      obtain ⟨k, b⟩ := kw
      by_cases hk : k = id
      · subst hk
        simp [setAgent] at h
        rcases h with h | h
        · exact Or.inl (by simp [h])
        · exact Or.inr (List.mem_cons_of_mem _ h)
      · simp [setAgent, hk] at h
        rcases h with h | h
        · exact Or.inr (by simp [h])
        · rcases ih h with h2 | h2
          · exact Or.inl h2
          · exact Or.inr (List.mem_cons_of_mem _ h2)

lemma appendCapped_length (log : List AgentActivity) (a : AgentActivity) :
    (appendCapped log a).length = min (log.length + 1) 100 := by
  unfold appendCapped
  by_cases h : 100 < (log ++ [a]).length
  · rw [if_pos h, List.length_drop]
    simp only [List.length_append, List.length_singleton] at h ⊢
    omega
  · rw [if_neg h]
    simp only [List.length_append, List.length_singleton] at h ⊢
    omega

lemma appendCapped_suffix (log : List AgentActivity) (a : AgentActivity) :
    List.IsSuffix (appendCapped log a) (log ++ [a]) := by
  unfold appendCapped
  by_cases h : 100 < (log ++ [a]).length
  · simp only [if_pos h]
    exact List.drop_suffix _ _
  · simp only [if_neg h]
    exact List.suffix_refl _

/-- All agents registered in the list keep their activity log within the
100-entry cap. -/
def LogBoundL (l : List (String × Agent)) : Prop :=
  ∀ ka ∈ l, (Prod.snd ka).activityLog.length ≤ 100

lemma logBound_setAgent (l : List (String × Agent)) (id : String) (a : Agent)
    (hl : LogBoundL l) (ha : a.activityLog.length ≤ 100) :
    LogBoundL (setAgent l id a) := by
  intro ka hka
  rcases mem_setAgent l id a ka hka with h | h
  · rw [h]
    exact ha
  · exact hl ka h

lemma logBound_logActivity (s : SystemState) (id : String)
    (act : AgentActivity) (hs : LogBoundL s.agents) :
    LogBoundL (logActivity s id act).agents := by
  unfold logActivity
  cases hl : lookupAgent s.agents id with
  | none => exact hs
  | some a =>
      refine logBound_setAgent _ _ _ hs ?_
      rw [appendCapped_length]
      omega

lemma applyRefresh_agents (s : SystemState) (pk : String)
    (ext : Option (ℚ × List TokenBalance)) :
    (applyRefresh s pk ext).agents = s.agents := by
  cases ext with
  | none => rfl
  | some bt => rfl

lemma logBound_cycleTrade (s : SystemState) (agentId pk : String)
    (side : TradeSide) (amount : ℚ) (ext : Option (ℚ × List TokenBalance))
    (hs : LogBoundL s.agents) :
    LogBoundL (cycleTrade s agentId pk side amount ext).agents := by
  unfold cycleTrade
  dsimp only
  rcases hsw : executeTrade s.wallets pk side
      (if amount = 0 then (1/10 : ℚ) else amount) with ⟨res, L2⟩
  cases res with
  | ok sig =>
      rw [applyRefresh_agents]
      exact logBound_logActivity { s with wallets := L2 } agentId _ hs
  | error e =>
      exact logBound_logActivity { s with wallets := L2 } agentId _ hs

lemma logBound_cycle (s : SystemState) (agentId : String) (price : ℚ)
    (ext : Option (ℚ × List TokenBalance)) (hs : LogBoundL s.agents) :
    LogBoundL (executeDecisionCycle s agentId price ext).agents := by
  unfold executeDecisionCycle
  cases ha : lookupAgent s.agents agentId with
  | none => exact hs
  | some a =>
      by_cases hst : a.status = AgentStatus.active
      · simp only [hst, ne_eq, not_true_eq_false, if_false]
        cases hw : lookupWallet s.wallets a.walletPublicKey with
        | none => exact logBound_logActivity s agentId _ hs
        | some w =>
            dsimp only
            cases hd : decideAction a price w.balance with
            | trade side amount =>
                exact logBound_cycleTrade s agentId a.walletPublicKey side
                  amount ext hs
            | wait r => exact logBound_logActivity s agentId _ hs
      · simp only [if_pos hst]
        exact hs

lemma logBound_createAgent (s : SystemState) (agentId pk : String)
    (cfg : AgentStrategyCfg) (hs : LogBoundL s.agents) :
    LogBoundL (createAgent s agentId pk cfg).agents := by
  unfold createAgent
  refine logBound_logActivity _ agentId _ ?_
  exact logBound_setAgent _ _ _ hs (by simp)

lemma logBound_startAgent (s : SystemState) (agentId : String) (price : ℚ)
    (ext : Option (ℚ × List TokenBalance)) (hs : LogBoundL s.agents) :
    LogBoundL (startAgent s agentId price ext).2.agents := by
  unfold startAgent
  cases ha : lookupAgent s.agents agentId with
  | none => exact hs
  | some a =>
      by_cases hst : a.status = AgentStatus.active
      · simp only [if_pos hst]
        exact hs
      · simp only [if_neg hst]
        refine logBound_cycle _ agentId price ext ?_
        refine logBound_logActivity _ agentId _ ?_
        refine logBound_setAgent _ _ _ hs ?_
        exact hs (agentId, a) (lookupAgent_mem _ _ _ ha)

lemma logBound_stopAgent (s : SystemState) (agentId : String)
    (hs : LogBoundL s.agents) :
    LogBoundL (stopAgent s agentId).2.agents := by
  unfold stopAgent
  cases ha : lookupAgent s.agents agentId with
  | none => exact hs
  | some a =>
      refine logBound_logActivity _ agentId _ ?_
      refine logBound_setAgent _ _ _ hs ?_
      exact hs (agentId, a) (lookupAgent_mem _ _ _ ha)

lemma logBound_stopAllGo (ids : List String) (s : SystemState)
    (hs : LogBoundL s.agents) :
    LogBoundL (stopAllAgentsGo ids s).2.agents := by
  induction ids generalizing s with
  | nil => exact hs
  | cons id rest ih =>
      unfold stopAllAgentsGo
      rcases hstop : stopAgent s id with ⟨res, s2⟩
      have h2 : LogBoundL s2.agents := by
        have := logBound_stopAgent s id hs
        rwa [hstop] at this
      cases res with
      | ok u => exact ih s2 h2
      | error e => exact h2

lemma logBound_deleteAgent (s : SystemState) (agentId : String)
    (hs : LogBoundL s.agents) :
    LogBoundL (deleteAgent s agentId).2.agents := by
  unfold deleteAgent
  by_cases hmem : agentId ∈ s.activeAgentIds
  · simp only [if_pos hmem]
    rcases hstop : stopAgent s agentId with ⟨res, s2⟩
    have h2 : LogBoundL s2.agents := by
      have := logBound_stopAgent s agentId hs
      rwa [hstop] at this
    cases res with
    | ok u =>
        intro ka hka
        exact h2 ka (List.mem_of_mem_filter hka)
    | error e => exact h2
  · simp only [if_neg hmem]
    intro ka hka
    exact hs ka (List.mem_of_mem_filter hka)

lemma logBound_applyOp (s : SystemState) (op : ControllerOp)
    (hs : LogBoundL s.agents) : LogBoundL (applyOp s op).agents := by
  cases op with
  | create agentId pk cfg =>
      unfold applyOp
      by_cases hfresh : lookupAgent s.agents agentId = none
      · simp only [if_pos hfresh]
        exact logBound_createAgent s agentId pk cfg hs
      · simp only [if_neg hfresh]
        exact hs
  | start agentId price ext => exact logBound_startAgent s agentId price ext hs
  | stop agentId => exact logBound_stopAgent s agentId hs
  | stopAll => exact logBound_stopAllGo s.activeAgentIds s hs
  | cycle agentId price ext => exact logBound_cycle s agentId price ext hs
  | delete agentId => exact logBound_deleteAgent s agentId hs

/-- C7: after any sequence of controller operations starting from the
empty controller, every agent's activity log has at most 100 entries;
and a log append always keeps the newest entries in order, evicting the
oldest first (the new log is a suffix of the old log plus the new entry,
of length min(old + 1, 100)). -/
theorem activityLog_bounded (ops : List ControllerOp) :
    (∀ ka ∈ (applyOps initialState ops).agents,
        (Prod.snd ka).activityLog.length ≤ 100) ∧
    ∀ (log : List AgentActivity) (a : AgentActivity),
      (appendCapped log a).length = min (log.length + 1) 100 ∧
      List.IsSuffix (appendCapped log a) (log ++ [a]) := by
  constructor
  · have : ∀ (l : List ControllerOp) (s : SystemState), LogBoundL s.agents →
        LogBoundL (applyOps s l).agents := by
      intro l
      induction l with
      | nil => exact fun s hs => hs
      | cons op rest ih =>
          intro s hs
          exact ih (applyOp s op) (logBound_applyOp s op hs)
    exact this ops initialState (by intro ka hka; simp [initialState] at hka)
  · intro log a
    exact ⟨appendCapped_length log a, appendCapped_suffix log a⟩

/-- Witness for C7: one create op, the created agent's log is within the
cap, and a concrete append keeps length min(0+1, 100) and suffix. -/
theorem activityLog_bounded_witness :
    ((⟨"a", "w", ⟨"simple-trader", ⟨none, none, none⟩⟩, AgentStatus.stopped,
        [⟨"created", Decision.created, ActivityResult.success⟩]⟩ :
          Agent).activityLog.length ≤ 100) ∧
    ((appendCapped [] ⟨"created", Decision.created,
        ActivityResult.success⟩).length =
        min (([] : List AgentActivity).length + 1) 100 ∧
      List.IsSuffix
        (appendCapped [] ⟨"created", Decision.created,
          ActivityResult.success⟩)
        (([] : List AgentActivity) ++
          [⟨"created", Decision.created, ActivityResult.success⟩])) :=
  ⟨(activityLog_bounded
      [ControllerOp.create "a" "w" ⟨"simple-trader", ⟨none, none, none⟩⟩]).1
      ("a", ⟨"a", "w", ⟨"simple-trader", ⟨none, none, none⟩⟩,
        AgentStatus.stopped,
        [⟨"created", Decision.created, ActivityResult.success⟩]⟩)
      (by simp [applyOps, applyOp, initialState, createAgent, createWallet,
        logActivity, lookupAgent, setAgent, appendCapped]),
    (activityLog_bounded []).2 []
      ⟨"created", Decision.created, ActivityResult.success⟩⟩

/-! ## C9: status = active exactly when a decision interval is scheduled -/

/-- The status of the agent registered under a given id, if any. -/
def statusOf (s : SystemState) (q : String) : Option AgentStatus :=
  (lookupAgent s.agents q).map Agent.status

/-- The C9 invariant: an agent is active exactly when its id owns a
scheduled decision interval, and exactly when it is in the active-id
set; ids without a registered agent own neither. -/
def StatusTimerInv (s : SystemState) : Prop :=
  ∀ q, (statusOf s q = some AgentStatus.active ↔ q ∈ s.decisionIntervals) ∧
       (statusOf s q = some AgentStatus.active ↔ q ∈ s.activeAgentIds)

/-- Two states with the same agent statuses, interval set and active-id
set. -/
def SameControl (s1 s2 : SystemState) : Prop :=
  (∀ q, statusOf s1 q = statusOf s2 q) ∧
  s1.decisionIntervals = s2.decisionIntervals ∧
  s1.activeAgentIds = s2.activeAgentIds

lemma inv_of_sameControl (s1 s2 : SystemState) (h : SameControl s2 s1)
    (hinv : StatusTimerInv s1) : StatusTimerInv s2 := by
  intro q
  rw [h.1 q, h.2.1, h.2.2]
  exact hinv q

lemma sameControl_wallets (s : SystemState) (L : Ledger) :
    SameControl { s with wallets := L } s :=
  ⟨fun _ => rfl, rfl, rfl⟩

lemma statusOf_logActivity (s : SystemState) (id : String)
    (act : AgentActivity) (q : String) :
    statusOf (logActivity s id act) q = statusOf s q := by
  unfold logActivity
  cases hl : lookupAgent s.agents id with
  | none => rfl
  | some a =>
      dsimp only
      by_cases hq : q = id
      · subst hq
        unfold statusOf
        dsimp only
        rw [lookupAgent_setAgent_self, hl]
        rfl
      · unfold statusOf
        dsimp only
        rw [lookupAgent_setAgent_other _ _ _ _ hq]

lemma sameControl_logActivity (s : SystemState) (id : String)
    (act : AgentActivity) : SameControl (logActivity s id act) s := by
  refine ⟨statusOf_logActivity s id act, ?_, ?_⟩ <;>
    · unfold logActivity
      cases lookupAgent s.agents id <;> rfl

lemma sameControl_trans (s1 s2 s3 : SystemState) (h12 : SameControl s1 s2)
    (h23 : SameControl s2 s3) : SameControl s1 s3 := by
  refine ⟨fun q => (h12.1 q).trans (h23.1 q), ?_, ?_⟩
  · rw [h12.2.1, h23.2.1]
  · rw [h12.2.2, h23.2.2]

lemma sameControl_applyRefresh (s : SystemState) (pk : String)
    (ext : Option (ℚ × List TokenBalance)) :
    SameControl (applyRefresh s pk ext) s := by
  cases ext with
  | none => exact ⟨fun _ => rfl, rfl, rfl⟩
  | some bt => exact ⟨fun _ => rfl, rfl, rfl⟩

lemma sameControl_cycleTrade (s : SystemState) (agentId pk : String)
    (side : TradeSide) (amount : ℚ)
    (ext : Option (ℚ × List TokenBalance)) :
    SameControl (cycleTrade s agentId pk side amount ext) s := by
  unfold cycleTrade
  dsimp only
  rcases executeTrade s.wallets pk side
      (if amount = 0 then (1/10 : ℚ) else amount) with ⟨res, L2⟩
  cases res with
  | ok sig =>
      refine sameControl_trans _ _ _ (sameControl_applyRefresh _ pk ext) ?_
      refine sameControl_trans _ _ _ (sameControl_logActivity _ agentId _) ?_
      exact sameControl_wallets s L2
  | error e =>
      refine sameControl_trans _ _ _ (sameControl_logActivity _ agentId _) ?_
      exact sameControl_wallets s L2

lemma sameControl_cycle (s : SystemState) (agentId : String) (price : ℚ)
    (ext : Option (ℚ × List TokenBalance)) :
    SameControl (executeDecisionCycle s agentId price ext) s := by
  unfold executeDecisionCycle
  cases ha : lookupAgent s.agents agentId with
  | none => exact ⟨fun _ => rfl, rfl, rfl⟩
  | some a =>
      by_cases hst : a.status = AgentStatus.active
      · simp only [hst, ne_eq, not_true_eq_false, if_false]
        cases hw : lookupWallet s.wallets a.walletPublicKey with
        | none => exact sameControl_logActivity s agentId _
        | some w =>
            dsimp only
            cases hd : decideAction a price w.balance with
            | trade side amount => exact sameControl_cycleTrade s agentId _ _ _ ext
            | wait r => exact sameControl_logActivity s agentId _
      · simp only [if_pos hst]
        exact ⟨fun _ => rfl, rfl, rfl⟩

lemma statusOf_setAgent_self (s : SystemState) (l : List (String × Agent))
    (id : String) (a : Agent) :
    statusOf { s with agents := setAgent l id a } id = some a.status := by
  unfold statusOf
  dsimp only
  rw [lookupAgent_setAgent_self]
  rfl

lemma inv_createAgent (s : SystemState) (agentId pk : String)
    (cfg : AgentStrategyCfg) (hfresh : lookupAgent s.agents agentId = none)
    (hinv : StatusTimerInv s) :
    StatusTimerInv (createAgent s agentId pk cfg) := by
  unfold createAgent
  refine inv_of_sameControl _ _ (sameControl_logActivity _ agentId _) ?_
  intro q
  unfold statusOf
  dsimp only
  by_cases hq : q = agentId
  · subst hq
    rw [lookupAgent_setAgent_self]
    have h1 : q ∉ s.decisionIntervals := fun hc => by
      have hact := ((hinv q).1).mpr hc
      unfold statusOf at hact
      rw [hfresh] at hact
      simp at hact
    have h2 : q ∉ s.activeAgentIds := fun hc => by
      have hact := ((hinv q).2).mpr hc
      unfold statusOf at hact
      rw [hfresh] at hact
      simp at hact
    constructor
    · exact ⟨fun h => by simp at h, fun h => absurd h h1⟩
    · exact ⟨fun h => by simp at h, fun h => absurd h h2⟩
  · rw [lookupAgent_setAgent_other _ _ _ _ hq]
    exact hinv q

lemma inv_startAgent (s : SystemState) (agentId : String) (price : ℚ)
    (ext : Option (ℚ × List TokenBalance)) (hinv : StatusTimerInv s) :
    StatusTimerInv (startAgent s agentId price ext).2 := by
  unfold startAgent
  cases ha : lookupAgent s.agents agentId with
  | none => exact hinv
  | some a =>
      dsimp only
      by_cases hst : a.status = AgentStatus.active
      · rw [if_pos hst]
        exact hinv
      · rw [if_neg hst]
        dsimp only
        refine inv_of_sameControl _ _
          (sameControl_cycle _ agentId price ext) ?_
        refine inv_of_sameControl _ _ ?_ (?_ : StatusTimerInv
          { s with
            agents := setAgent s.agents agentId
              { a with status := AgentStatus.active },
            activeAgentIds := addId s.activeAgentIds agentId,
            decisionIntervals := addId s.decisionIntervals agentId })
        · have hlog := sameControl_logActivity
            { s with
              agents := setAgent s.agents agentId
                { a with status := AgentStatus.active },
              activeAgentIds := addId s.activeAgentIds agentId } agentId
            { action := "started", decision := Decision.started,
              result := ActivityResult.success }
          exact ⟨fun q => hlog.1 q, by dsimp only; rw [hlog.2.1], hlog.2.2⟩
        · intro q
          unfold statusOf
          dsimp only
          by_cases hq : q = agentId
          · subst hq
            rw [lookupAgent_setAgent_self]
            exact ⟨⟨fun _ => (mem_addId _ _ _).mpr (Or.inr rfl), fun _ => rfl⟩,
              ⟨fun _ => (mem_addId _ _ _).mpr (Or.inr rfl), fun _ => rfl⟩⟩
          · rw [lookupAgent_setAgent_other _ _ _ _ hq]
            have h := hinv q
            constructor
            · rw [mem_addId]
              constructor
              · intro hs2
                exact Or.inl (h.1.mp hs2)
              · rintro (hin | rfl)
                · exact h.1.mpr hin
                · exact absurd rfl hq
            · rw [mem_addId]
              constructor
              · intro hs2
                exact Or.inl (h.2.mp hs2)
              · rintro (hin | rfl)
                · exact h.2.mpr hin
                · exact absurd rfl hq

lemma inv_stopAgent (s : SystemState) (agentId : String)
    (hinv : StatusTimerInv s) :
    StatusTimerInv (stopAgent s agentId).2 := by
  unfold stopAgent
  cases ha : lookupAgent s.agents agentId with
  | none => exact hinv
  | some a =>
      dsimp only
      refine inv_of_sameControl _ _ (sameControl_logActivity _ agentId _) ?_
      intro q
      unfold statusOf
      dsimp only
      by_cases hq : q = agentId
      · subst hq
        rw [lookupAgent_setAgent_self]
        constructor
        · constructor
          · intro h
            simp at h
          · intro h
            rw [mem_removeId] at h
            exact absurd rfl h.2
        · constructor
          · intro h
            simp at h
          · intro h
            rw [mem_removeId] at h
            exact absurd rfl h.2
      · rw [lookupAgent_setAgent_other _ _ _ _ hq]
        have h := hinv q
        constructor
        · rw [mem_removeId]
          exact ⟨fun hs2 => ⟨h.1.mp hs2, hq⟩, fun hmem => h.1.mpr hmem.1⟩
        · rw [mem_removeId]
          exact ⟨fun hs2 => ⟨h.2.mp hs2, hq⟩, fun hmem => h.2.mpr hmem.1⟩

lemma inv_stopAllGo (ids : List String) (s : SystemState)
    (hinv : StatusTimerInv s) :
    StatusTimerInv (stopAllAgentsGo ids s).2 := by
  induction ids generalizing s with
  | nil => exact hinv
  | cons id rest ih =>
      unfold stopAllAgentsGo
      rcases hstop : stopAgent s id with ⟨res, s2⟩
      have h2 : StatusTimerInv s2 := by
        have h := inv_stopAgent s id hinv
        rwa [hstop] at h
      cases res with
      | ok u => exact ih s2 h2
      | error e => exact h2

lemma inv_removeAgent (s : SystemState) (agentId : String)
    (hna : statusOf s agentId ≠ some AgentStatus.active)
    (hinv : StatusTimerInv s) :
    StatusTimerInv { s with agents := removeAgent s.agents agentId } := by
  intro q
  unfold statusOf
  dsimp only
  by_cases hq : q = agentId
  · subst hq
    rw [lookupAgent_removeAgent_self]
    have h1 : q ∉ s.decisionIntervals := fun hc => hna ((hinv q).1.mpr hc)
    have h2 : q ∉ s.activeAgentIds := fun hc => hna ((hinv q).2.mpr hc)
    exact ⟨⟨fun h => by simp at h, fun h => absurd h h1⟩,
      ⟨fun h => by simp at h, fun h => absurd h h2⟩⟩
  · rw [lookupAgent_removeAgent_other _ _ _ hq]
    exact hinv q

lemma stopAgent_statusOf_self (s : SystemState) (agentId : String) (a : Agent)
    (ha : lookupAgent s.agents agentId = some a) :
    statusOf (stopAgent s agentId).2 agentId = some AgentStatus.stopped := by
  unfold stopAgent
  rw [ha]
  dsimp only
  rw [statusOf_logActivity]
  unfold statusOf
  dsimp only
  rw [lookupAgent_setAgent_self]
  rfl

lemma inv_deleteAgent (s : SystemState) (agentId : String)
    (hinv : StatusTimerInv s) :
    StatusTimerInv (deleteAgent s agentId).2 := by
  unfold deleteAgent
  by_cases hmem : agentId ∈ s.activeAgentIds
  · rw [if_pos hmem]
    rcases hstop : stopAgent s agentId with ⟨res, s2⟩
    have h2 : StatusTimerInv s2 := by
      have h := inv_stopAgent s agentId hinv
      rwa [hstop] at h
    cases res with
    | error e => exact h2
    | ok u =>
        refine inv_removeAgent s2 agentId ?_ h2
        cases ha : lookupAgent s.agents agentId with
        | none =>
            unfold stopAgent at hstop
            rw [ha] at hstop
            simp at hstop
        | some a =>
            have hself := stopAgent_statusOf_self s agentId a ha
            rw [hstop] at hself
            rw [show ((Except.ok u, s2) :
                Except String Unit × SystemState).2 = s2 from rfl] at hself
            rw [hself]
            simp
  · rw [if_neg hmem]
    dsimp only
    refine inv_removeAgent s agentId ?_ hinv
    intro hc
    exact hmem ((hinv agentId).2.mp hc)

lemma inv_applyOp (s : SystemState) (op : ControllerOp)
    (hinv : StatusTimerInv s) : StatusTimerInv (applyOp s op) := by
  cases op with
  | create agentId pk cfg =>
      unfold applyOp
      by_cases hfresh : lookupAgent s.agents agentId = none
      · simp only [if_pos hfresh]
        exact inv_createAgent s agentId pk cfg hfresh hinv
      · simp only [if_neg hfresh]
        exact hinv
  | start agentId price ext => exact inv_startAgent s agentId price ext hinv
  | stop agentId => exact inv_stopAgent s agentId hinv
  | stopAll => exact inv_stopAllGo s.activeAgentIds s hinv
  | cycle agentId price ext =>
      exact inv_of_sameControl _ _ (sameControl_cycle s agentId price ext) hinv
  | delete agentId => exact inv_deleteAgent s agentId hinv

/-- C9: after any sequence of controller operations starting from the
empty controller, an agent's status is active exactly when a decision
interval is scheduled under its id (no missing timer while active), and
every scheduled interval belongs to a registered agent (no orphaned
timer). -/
theorem active_iff_scheduled (ops : List ControllerOp) (q : String) :
    ((statusOf (applyOps initialState ops) q = some AgentStatus.active) ↔
      q ∈ (applyOps initialState ops).decisionIntervals) ∧
    (q ∈ (applyOps initialState ops).decisionIntervals →
      lookupAgent (applyOps initialState ops).agents q ≠ none) := by
  have hinv : StatusTimerInv (applyOps initialState ops) := by
    have hall : ∀ (l : List ControllerOp) (s : SystemState),
        StatusTimerInv s → StatusTimerInv (applyOps s l) := by
      intro l
      induction l with
      | nil => exact fun s hs => hs
      | cons op rest ih =>
          exact fun s hs => ih (applyOp s op) (inv_applyOp s op hs)
    refine hall ops initialState ?_
    intro q2
    constructor <;> constructor <;> intro h <;>
      simp [initialState, statusOf, lookupAgent] at h
  refine ⟨(hinv q).1, fun hmem => ?_⟩
  have hact := (hinv q).1.mpr hmem
  unfold statusOf at hact
  intro hnone
  rw [hnone] at hact
  simp at hact

/-- Witness for C9: create then start an agent; it is active, scheduled,
and registered. -/
theorem active_iff_scheduled_witness :
    statusOf (applyOps initialState
      [ControllerOp.create "a" "w" ⟨"simple-trader", ⟨none, none, none⟩⟩,
        ControllerOp.start "a" 100 none]) "a" = some AgentStatus.active ∧
    lookupAgent (applyOps initialState
      [ControllerOp.create "a" "w" ⟨"simple-trader", ⟨none, none, none⟩⟩,
        ControllerOp.start "a" 100 none]).agents "a" ≠ none := by
  have h := active_iff_scheduled
    [ControllerOp.create "a" "w" ⟨"simple-trader", ⟨none, none, none⟩⟩,
      ControllerOp.start "a" 100 none] "a"
  have hmem : "a" ∈ (applyOps initialState
      [ControllerOp.create "a" "w" ⟨"simple-trader", ⟨none, none, none⟩⟩,
        ControllerOp.start "a" 100 none]).decisionIntervals := by
    simp [applyOps, applyOp, createAgent, createWallet, logActivity,
      lookupAgent, setAgent, appendCapped, startAgent, executeDecisionCycle,
      decideAction, createStrategyInstance, SimpleTraderStrategy.create,
      SimpleTraderStrategy.evaluate, orDefault, lookupWallet, addId,
      initialState,
      (show (0:ℚ) < 1/10 by norm_num)]
  exact ⟨h.1.mpr hmem, h.2 hmem⟩

/-! ## C2: stopAllAgents and failures of individual stops -/

lemma lookupAgent_logActivity_other (s : SystemState) (id : String)
    (act : AgentActivity) (q : String) (hq : q ≠ id) :
    lookupAgent (logActivity s id act).agents q = lookupAgent s.agents q := by
  unfold logActivity
  cases hl : lookupAgent s.agents id with
  | none => rfl
  | some a =>
      dsimp only
      rw [lookupAgent_setAgent_other _ _ _ _ hq]

lemma stopAgent_missing (s : SystemState) (agentId : String)
    (hb : lookupAgent s.agents agentId = none) :
    stopAgent s agentId =
      (Except.error ("Agent not found: " ++ agentId), s) := by
  unfold stopAgent
  rw [hb]

lemma stopAgent_found_ok (s : SystemState) (agentId : String) (a : Agent)
    (ha : lookupAgent s.agents agentId = some a) :
    (stopAgent s agentId).1 = Except.ok () := by
  unfold stopAgent
  rw [ha]

lemma lookupAgent_stopAgent_other (s : SystemState) (agentId q : String)
    (hq : q ≠ agentId) :
    lookupAgent (stopAgent s agentId).2.agents q = lookupAgent s.agents q := by
  unfold stopAgent
  cases ha : lookupAgent s.agents agentId with
  | none => rfl
  | some a =>
      dsimp only
      rw [lookupAgent_logActivity_other _ _ _ _ hq]
      dsimp only
      rw [lookupAgent_setAgent_other _ _ _ _ hq]

lemma stopAgent_isSome (s : SystemState) (agentId q : String) :
    (lookupAgent (stopAgent s agentId).2.agents q).isSome =
      (lookupAgent s.agents q).isSome := by
  by_cases hq : q = agentId
  · subst hq
    cases ha : lookupAgent s.agents q with
    | none =>
        rw [stopAgent_missing s q ha]
        rw [ha]
    | some a =>
        have hs := stopAgent_statusOf_self s q a ha
        unfold statusOf at hs
        cases hl : lookupAgent (stopAgent s q).2.agents q with
        | none => rw [hl] at hs; simp at hs
        | some a2 => rfl
  · rw [lookupAgent_stopAgent_other s agentId q hq]

/-- The loop of `stopAllAgents` on a snapshot pre ++ [b] ++ post, where
every id in pre is registered and b is not: the stops in pre succeed,
the stop of b throws and the error propagates, and nothing after b is
processed — any id outside pre (including every id in post) is left
exactly as it was. -/
lemma stopAllGo_aborts (pre : List String) (b : String) (post : List String)
    (s : SystemState)
    (hpre : ∀ id ∈ pre, (lookupAgent s.agents id).isSome = true)
    (hb : lookupAgent s.agents b = none) :
    (stopAllAgentsGo (pre ++ b :: post) s).1 =
      Except.error ("Agent not found: " ++ b) ∧
    (∀ id ∈ pre, statusOf (stopAllAgentsGo (pre ++ b :: post) s).2 id =
      some AgentStatus.stopped) ∧
    (∀ q, q ∉ pre →
      lookupAgent (stopAllAgentsGo (pre ++ b :: post) s).2.agents q =
        lookupAgent s.agents q) := by
  induction pre generalizing s with
  | nil =>
      rw [List.nil_append]
      unfold stopAllAgentsGo
      rw [stopAgent_missing s b hb]
      exact ⟨rfl, by intro id hid; simp at hid, fun q _ => rfl⟩
  | cons p pre' ih =>
      obtain ⟨a, ha⟩ := Option.isSome_iff_exists.mp
        (hpre p (List.mem_cons_self p pre'))
      have hbp : b ≠ p := by
        intro he
        rw [he, ha] at hb
        exact Option.noConfusion hb
      rw [List.cons_append]
      unfold stopAllAgentsGo
      rcases hstop : stopAgent s p with ⟨res, s2⟩
      have hok : res = Except.ok () := by
        have h := stopAgent_found_ok s p a ha
        rw [hstop] at h
        exact h
      subst hok
      have hpre2 : ∀ id ∈ pre', (lookupAgent s2.agents id).isSome = true := by
        intro id hid
        have h := stopAgent_isSome s p id
        rw [hstop] at h
        rw [h]
        exact hpre id (List.mem_cons_of_mem _ hid)
      have hb2 : lookupAgent s2.agents b = none := by
        have h := lookupAgent_stopAgent_other s p b hbp
        rw [hstop] at h
        rw [h]
        exact hb
      obtain ⟨ih1, ih2, ih3⟩ := ih s2 hpre2 hb2
      have hself : statusOf s2 p = some AgentStatus.stopped := by
        have h := stopAgent_statusOf_self s p a ha
        rw [hstop] at h
        exact h
      refine ⟨ih1, ?_, ?_⟩
      · intro id hid
        rcases List.mem_cons.mp hid with rfl | hid2
        · by_cases hp : id ∈ pre'
          · exact ih2 id hp
          · unfold statusOf
            rw [ih3 id hp]
            exact hself
        · exact ih2 id hid2
      · intro q hq
        have hqp : q ≠ p := fun he => hq (he ▸ List.mem_cons_self p pre')
        have hqpre : q ∉ pre' := fun hc => hq (List.mem_cons_of_mem _ hc)
        rw [ih3 q hqpre]
        have h := lookupAgent_stopAgent_other s p q hqp
        rw [hstop] at h
        exact h

/-- C2 amended: stopAllAgents iterates the snapshot of active ids in
order awaiting each stop with no error handling, so the first failing
stop propagates and aborts the remainder: agents stopped before the
failure end stopped, while every agent at or after the failing id is
left untouched (an active agent after the failure stays active). -/
theorem stopAllAgents_aborts_on_failure (s : SystemState)
    (pre post : List String) (b : String)
    (hsnap : s.activeAgentIds = pre ++ b :: post)
    (hpre : ∀ id ∈ pre, (lookupAgent s.agents id).isSome = true)
    (hb : lookupAgent s.agents b = none) :
    (stopAllAgents s).1 = Except.error ("Agent not found: " ++ b) ∧
    (∀ id ∈ pre, statusOf (stopAllAgents s).2 id =
      some AgentStatus.stopped) ∧
    (∀ q, q ∉ pre → lookupAgent (stopAllAgents s).2.agents q =
      lookupAgent s.agents q) := by
  unfold stopAllAgents
  rw [hsnap]
  exact stopAllGo_aborts pre b post s hpre hb

def c2Agent (i pk : String) : Agent :=
  ⟨i, pk, ⟨"simple-trader", ⟨none, none, none⟩⟩, AgentStatus.active, []⟩

/-- Three ids in the active set, the second of which has no registered
agent, so stopping it throws. -/
def c2State : SystemState :=
  { agents := [("a", c2Agent "a" "wa"), ("c", c2Agent "c" "wc")],
    activeAgentIds := ["a", "b", "c"],
    decisionIntervals := ["a", "c"],
    wallets := [] }

/-- Counterexample to C2: stopAllAgents over active ids a, b, c, where
stopping b throws — agent a ends stopped, but agent c is never stopped
and ends with status still active. -/
theorem stopAllAgents_abandons_remainder :
    (stopAllAgents c2State).1 = Except.error "Agent not found: b" ∧
    (lookupAgent (stopAllAgents c2State).2.agents "a").map Agent.status =
      some AgentStatus.stopped ∧
    (lookupAgent (stopAllAgents c2State).2.agents "c").map Agent.status =
      some AgentStatus.active := by
  exact ⟨rfl, by decide, by decide⟩

/-- Witness for the amended C2 at the concrete three-agent state. -/
theorem stopAllAgents_aborts_on_failure_witness :
    (stopAllAgents c2State).1 =
      Except.error ("Agent not found: " ++ "b") ∧
    statusOf (stopAllAgents c2State).2 "a" = some AgentStatus.stopped ∧
    lookupAgent (stopAllAgents c2State).2.agents "c" =
      lookupAgent c2State.agents "c" := by
  have h := stopAllAgents_aborts_on_failure c2State ["a"] ["c"] "b" rfl
    (by intro id hid
        rw [List.mem_singleton] at hid
        subst hid
        rfl)
    (by decide)
  exact ⟨h.1, h.2.1 "a" (List.mem_singleton.mpr rfl), h.2.2 "c" (by decide)⟩

end AgenticWallet
